import Mathlib

/-!
Shallow embedding of the core of the `memberlist` gossip membership engine
(awareness score, suspicion timers, the membership table and its
state-change handlers `aliveNode` / `suspectNode` / `deadNode` /
`resetNodes`, protocol verification and refutation), together with
theorems settling the specification claims about it.

Conventions of the embedding:
* Go `uint32` counters are `Nat` with explicit `% 2 ^ 32` where the code
  can overflow (`atomic.AddUint32`).
* `time.Time` / `time.Duration` are `Int` nanoseconds; the current time is
  passed explicitly to each handler.
* Go maps keyed by node name are association lists `List (String × α)`;
  mutation through a pointer held both by the map and the ordered slice is
  modelled by keeping the ordered slice as a list of names and updating the
  single map entry.
* Delegate callbacks that do not influence the table are ghost state
  (`conflicts` counter, `broadcasts` log).
-/

namespace MemberlistModel

/-! ## Association-list helpers (Go map operations) -/

/-- Lookup in an association list, the model of a Go map read. -/
def alookup (k : String) : List (String × α) → Option α
  | [] => none
  | (k', v) :: rest => if k = k' then some v else alookup k rest

/-- Set a key: replace the entry if present, otherwise add it.  Models a Go
map write; writing through a pointer obtained from the map is a write to
the same entry. -/
def aset (k : String) (v : α) : List (String × α) → List (String × α)
  | [] => [(k, v)]
  | (k', v') :: rest => if k = k' then (k, v) :: rest else (k', v') :: aset k v rest

/-- Delete a key, the model of Go `delete(m, k)`. -/
def aerase (k : String) : List (String × α) → List (String × α)
  | [] => []
  | (k', v') :: rest => if k = k' then rest else (k', v') :: aerase k rest

theorem alookup_aset_self (k : String) (v : α) (l : List (String × α)) :
    alookup k (aset k v l) = some v := by
  induction l with
  | nil => simp [aset, alookup]
  | cons hd tl ih =>
    by_cases h : k = hd.1
    · simp [aset, alookup, h]
    · simp [aset, alookup, h, ih]

theorem alookup_aset_ne (k k' : String) (v : α) (l : List (String × α)) (h : k ≠ k') :
    alookup k (aset k' v l) = alookup k l := by
  induction l with
  | nil => simp [aset, alookup, h]
  | cons hd tl ih =>
    by_cases h' : k' = hd.1
    · subst h'
      simp [aset, alookup, h]
    · by_cases h'' : k = hd.1 <;> simp [aset, alookup, h', h'', ih]

/-- Swap two positions of a list; out-of-range indices leave it unchanged. -/
def listSwap (l : List α) (i j : Nat) : List α :=
  match l.get? i, l.get? j with
  | some a, some b => (l.set i b).set j a
  | _, _ => l

theorem listSwap_length (l : List α) (i j : Nat) :
    (listSwap l i j).length = l.length := by
  unfold listSwap
  cases l.get? i <;> cases l.get? j <;> simp

/-! ## Awareness (`awareness.go`) -/

/-- Node health score object: `max` is the exclusive upper bound, `score`
the current value (lower is healthier). -/
structure Awareness where
  max : Int
  score : Int
  deriving DecidableEq, Repr

/-- `newAwareness` starts at score 0. -/
def newAwareness (max : Int) : Awareness :=
  { max := max, score := 0 }

/-- `ApplyDelta` adds the delta and rails the score into `[0, max-1]`
(translation of `awareness.go` lines 41-56; the metrics emission is
dropped). -/
def ApplyDelta (delta : Int) (a : Awareness) : Awareness :=
  let score := a.score + delta
  let score := if score < 0 then 0
               else if score > a.max - 1 then a.max - 1
               else score
  { a with score := score }

/-- `ScaleTimeout` stretches a timeout by `score + 1`
(`awareness.go` lines 69-74). -/
def ScaleTimeout (timeout : Int) (a : Awareness) : Int :=
  timeout * (a.score + 1)

/-! ## Suspicion timers (`suspicion.go`) -/

/-- State of one suspicion timer.  The Go `time.Timer` is modelled by its
absolute `deadline`; `confirmations` is the set of names that already
confirmed (list membership models map membership). -/
structure Suspicion where
  n : Int
  k : Int
  min : Int
  max : Int
  start : Int
  deadline : Int
  confirmations : List String
  deriving DecidableEq, Repr

/-- `newSuspicion` (suspicion.go lines 58-91): the accuser is pre-inserted
into the confirmation set, and the timer is armed with `max`, or `min`
when `k < 1`. -/
def newSuspicion (now : Int) (frm : String) (k : Int) (min max : Int) : Suspicion :=
  let timeout := if k < 1 then min else max
  { n := 0, k := k, min := min, max := max, start := now,
    deadline := now + timeout, confirmations := [frm] }

/-- `remainingSuspicionTime` (suspicion.go lines 97-109).  The Go float64
computation `log(n+1)/log(k+1)` and the seconds conversion are modelled by
exact real arithmetic; durations stay integer nanoseconds and
`math.Floor(1000.0*raw)` is the integer floor of milliseconds. -/
noncomputable def remainingSuspicionTime (n k : Int) (elapsed min max : Int) : Int :=
  let frac : ℝ := Real.log ((n : ℝ) + 1) / Real.log ((k : ℝ) + 1)
  let raw : ℝ := (max : ℝ) / 10 ^ 9 - frac * ((max : ℝ) / 10 ^ 9 - (min : ℝ) / 10 ^ 9)
  let timeout0 : Int := ⌊1000 * raw⌋ * 1000000
  let timeout := if timeout0 < min then min else timeout0
  timeout - elapsed

/-- `Confirm` (suspicion.go lines 117-149).  Returns whether the
confirmation was new information together with the updated record.  The
`timer.Stop()` success test is `now < deadline`; a non-positive remaining
time fires the timer at once (deadline `now`). -/
noncomputable def Confirm (now : Int) (frm : String) (s : Suspicion) : Bool × Suspicion :=
  if s.n ≥ s.k then (false, s)
  else if frm ∈ s.confirmations then (false, s)
  else
    let n' := s.n + 1
    let elapsed := now - s.start
    let remaining := remainingSuspicionTime n' s.k elapsed s.min s.max
    let deadline' :=
      if now < s.deadline then
        if remaining > 0 then now + remaining else now
      else s.deadline
    (true, { s with n := n', confirmations := frm :: s.confirmations, deadline := deadline' })

/-! ## Data model (`state.go` part of `src/unnamed/part_000`) -/

/-- Node state enumeration (`StateAlive` .. `StateLeft`). -/
inductive NodeStateType where
  | alive
  | suspect
  | dead
  | left
  deriving DecidableEq, Repr

/-- Public node snapshot.  The address is a list of IP bytes, metadata an
opaque byte list, and the six version bytes are the protocol/delegate
min, max and current versions (all `uint8`, modelled as `Nat`). -/
structure Node where
  name : String
  addr : List Nat
  port : Nat
  meta : List Nat
  pmin : Nat
  pmax : Nat
  pcur : Nat
  dmin : Nat
  dmax : Nat
  dcur : Nat
  deriving DecidableEq, Repr

/-- Internal view of one peer (`nodeState`). -/
structure NodeState where
  node : Node
  incarnation : Nat
  state : NodeStateType
  stateChange : Int
  deriving DecidableEq, Repr

/-- `DeadOrLeft` predicate on a node state. -/
def NodeState.DeadOrLeft (st : NodeState) : Bool :=
  st.state = NodeStateType.dead || st.state = NodeStateType.left

/-- `alive` wire message. -/
structure Alive where
  incarnation : Nat
  node : String
  addr : List Nat
  port : Nat
  meta : List Nat
  vsn : List Nat
  deriving DecidableEq, Repr

/-- `suspect` wire message. -/
structure Suspect where
  incarnation : Nat
  node : String
  frm : String
  deriving DecidableEq, Repr

/-- `dead` wire message; `node = frm` signals a voluntary leave. -/
structure Dead where
  incarnation : Nat
  node : String
  frm : String
  deriving DecidableEq, Repr

/-- Snapshot record exchanged during push/pull (`pushNodeState`). -/
structure PushNodeState where
  name : String
  addr : List Nat
  port : Nat
  meta : List Nat
  incarnation : Nat
  state : NodeStateType
  vsn : List Nat
  deriving DecidableEq, Repr

/-- Configuration options consumed by the core handlers.  `ipAllowed`
models `Config.IPAllowed` and `aliveDelegate` the optional `Alive`
delegate (returning `true` to accept the node); both live in the missing
`config.go`, so their behaviour is a parameter.  `suspicionTimeoutFn` is
the `suspicionTimeout` helper of the missing `util.go`.
Modelled from the spec: `min = suspicion_timeout(suspicion_mult,
num_nodes, probe_interval)` — the spec gives only the call shape, so the
function itself is a configuration parameter of the model. -/
structure Config where
  name : String
  deadNodeReclaimTime : Int
  gossipToTheDeadTime : Int
  suspicionMult : Int
  suspicionMaxTimeoutMult : Int
  probeInterval : Int
  ipAllowed : List Nat → Bool
  aliveDelegate : Option (Node → Bool)
  hasConflictDelegate : Bool
  suspicionTimeoutFn : Int → Int → Int → Int

/-- The shared membership state of one `Memberlist` instance.  `nodeMap`
and `nodes` model the by-name map and the ordered probe sequence (which
in Go hold pointers to the same `nodeState` records: the sequence is kept
as names and reads go through the map).  `leftFlag` models `hasLeft()`;
`conflicts` and `broadcasts` are ghost observables recording conflict
delegate invocations and broadcast alive messages. -/
structure Memberlist where
  nodeMap : List (String × NodeState)
  nodes : List String
  numNodes : Nat
  nodeTimers : List (String × Suspicion)
  incarnation : Nat
  awareness : Awareness
  leftFlag : Bool
  conflicts : Nat
  broadcasts : List Alive
  deriving Repr

/-- Fresh instance: the empty, trivially reachable table. -/
def initMemberlist (awarenessMax : Int) : Memberlist :=
  { nodeMap := [], nodes := [], numNodes := 0, nodeTimers := [],
    incarnation := 0, awareness := newAwareness awarenessMax,
    leftFlag := false, conflicts := 0, broadcasts := [] }

/-! ## Incarnation counter and refutation -/

/-- `nextIncarnation` — `atomic.AddUint32(&m.incarnation, 1)`. -/
def nextIncarnation (m : Memberlist) : Nat × Memberlist :=
  let i := (m.incarnation + 1) % 2 ^ 32
  (i, { m with incarnation := i })

/-- `skipIncarnation` — `atomic.AddUint32(&m.incarnation, offset)`
(part_000 lines 933-936). -/
def skipIncarnation (offset : Nat) (m : Memberlist) : Nat × Memberlist :=
  let i := (m.incarnation + offset) % 2 ^ 32
  (i, { m with incarnation := i })

/-- `refute` (part_000 lines 1036-1064): bump the incarnation counter past
the accusation, store it into the passed node state, penalise awareness and
broadcast an alive message with the new incarnation.  Returns the updated
instance state, the updated node state (written back through the shared
pointer by every caller) and the broadcast message.  `accusedInc - inc`
is Go `uint32` subtraction, exact under the guard `accusedInc ≥ inc`; the
`+ 1` may wrap. -/
def refute (m : Memberlist) (me : NodeState) (accusedInc : Nat) : Memberlist × NodeState × Alive :=
  let (inc, m1) := nextIncarnation m
  let (inc2, m2) :=
    if accusedInc ≥ inc then skipIncarnation ((accusedInc - inc + 1) % 2 ^ 32) m1
    else (inc, m1)
  let me' := { me with incarnation := inc2 }
  let m3 := { m2 with awareness := ApplyDelta 1 m2.awareness }
  let a : Alive :=
    { incarnation := inc2, node := me'.node.name, addr := me'.node.addr,
      port := me'.node.port, meta := me'.node.meta,
      vsn := [me'.node.pmin, me'.node.pmax, me'.node.pcur,
              me'.node.dmin, me'.node.dmax, me'.node.dcur] }
  ({ m3 with broadcasts := a :: m3.broadcasts }, me', a)

/-! ## aliveNode (part_000 lines 1069-1306) -/

/-- Protocol version sanity check on an alive message (lines 1085-1093):
when at least three version bytes are present, `pmin` and `pmax` must be
nonzero with `pmin ≤ pmax`. -/
def vsnBad (a : Alive) : Bool :=
  3 ≤ a.vsn.length &&
    (a.vsn.getD 0 0 = 0 || a.vsn.getD 1 0 = 0 || a.vsn.getD 1 0 < a.vsn.getD 0 0)

/-- Node snapshot built from an alive message for the alive delegate
(lines 1106-1117; the code reaches this only with six version bytes). -/
def aliveToNode (a : Alive) : Node :=
  { name := a.node, addr := a.addr, port := a.port, meta := a.meta,
    pmin := a.vsn.getD 0 0, pmax := a.vsn.getD 1 0, pcur := a.vsn.getD 2 0,
    dmin := a.vsn.getD 3 0, dmax := a.vsn.getD 4 0, dcur := a.vsn.getD 5 0 }

/-- Alive-delegate filtering (lines 1100-1123): with a configured delegate
the message needs six version bytes and the delegate's acceptance. -/
def aliveDelegateRejects (cfg : Config) (a : Alive) : Bool :=
  match cfg.aliveDelegate with
  | none => false
  | some accepts => a.vsn.length < 6 || !(accepts (aliveToNode a))

/-- Fresh node state inserted for a previously unknown name
(lines 1137-1153): created in the Dead state with zero incarnation. -/
def newNodeState (a : Alive) : NodeState :=
  { node := { name := a.node, addr := a.addr, port := a.port, meta := a.meta,
              pmin := if 5 < a.vsn.length then a.vsn.getD 0 0 else 0,
              pmax := if 5 < a.vsn.length then a.vsn.getD 1 0 else 0,
              pcur := if 5 < a.vsn.length then a.vsn.getD 2 0 else 0,
              dmin := if 5 < a.vsn.length then a.vsn.getD 3 0 else 0,
              dmax := if 5 < a.vsn.length then a.vsn.getD 4 0 else 0,
              dcur := if 5 < a.vsn.length then a.vsn.getD 5 0 else 0 },
    incarnation := 0, state := NodeStateType.dead, stateChange := 0 }

/-- Random splice of a new name into the probe sequence (lines 1162-1167):
append, then swap with the element at the random offset. -/
def spliceNode (offset : Nat) (nodes : List String) (x : String) : List String :=
  listSwap (nodes ++ [x]) offset nodes.length

/-- The record update applied by `aliveNode` in its re-broadcast branch
(lines 1266-1286): copy the version bytes when present, then incarnation,
meta and address, and transition to Alive when not there yet. -/
def aliveUpdatedState (now : Int) (a : Alive) (st : NodeState) : NodeState :=
  let n0 := st.node
  let n1 := if 0 < a.vsn.length then
      { n0 with pmin := a.vsn.getD 0 0, pmax := a.vsn.getD 1 0, pcur := a.vsn.getD 2 0,
                dmin := a.vsn.getD 3 0, dmax := a.vsn.getD 4 0, dcur := a.vsn.getD 5 0 }
    else n0
  { st with
    node := { n1 with meta := a.meta, addr := a.addr, port := a.port },
    incarnation := a.incarnation,
    state := if st.state ≠ NodeStateType.alive then NodeStateType.alive else st.state,
    stateChange := if st.state ≠ NodeStateType.alive then now else st.stateChange }

/-- Tail of `aliveNode` past the map insert / address-conflict gate
(lines 1213-1305): the incarnation guards, suspicion-timer cancellation,
self-refutation and the actual record update.  `st` is the map entry for
`a.node` in `m` and `updatesNode` says an address change was accepted. -/
def aliveNodeCont (cfg : Config) (now : Int) (a : Alive) (bootstrap : Bool)
    (updatesNode : Bool) (st : NodeState) (m : Memberlist) : Memberlist :=
  let isLocal := st.node.name = cfg.name
  if a.incarnation ≤ st.incarnation ∧ ¬isLocal ∧ ¬updatesNode then m
  else if a.incarnation < st.incarnation ∧ isLocal then m
  else
    let m := { m with nodeTimers := aerase a.node m.nodeTimers }
    if ¬bootstrap ∧ isLocal then
      let versions := [st.node.pmin, st.node.pmax, st.node.pcur,
                       st.node.dmin, st.node.dmax, st.node.dcur]
      if a.incarnation = st.incarnation ∧ a.meta = st.node.meta ∧ a.vsn = versions then m
      else
        let r := refute m st a.incarnation
        { r.1 with nodeMap := aset a.node r.2.1 r.1.nodeMap }
    else
      let m := { m with broadcasts := a :: m.broadcasts }
      { m with nodeMap := aset a.node (aliveUpdatedState now a st) m.nodeMap }

/-- `aliveNode` (part_000 lines 1069-1306).  `offset` is the value of
`randomOffset(len(m.nodes))` used when a new node is spliced in; `now` is
the current time.  Event-delegate notifications do not touch the table and
are omitted. -/
def aliveNode (cfg : Config) (now : Int) (offset : Nat) (a : Alive) (bootstrap : Bool)
    (m : Memberlist) : Memberlist :=
  if m.leftFlag ∧ a.node = cfg.name then m
  else if vsnBad a then m
  else if aliveDelegateRejects cfg a then m
  else
    match alookup a.node m.nodeMap with
    | none =>
      if ¬cfg.ipAllowed a.addr then m
      else
        let st := newNodeState a
        let m1 := { m with nodeMap := aset a.node st m.nodeMap,
                           nodes := spliceNode offset m.nodes a.node,
                           numNodes := m.numNodes + 1 }
        aliveNodeCont cfg now a bootstrap false st m1
    | some st =>
      if st.node.addr ≠ a.addr ∨ st.node.port ≠ a.port then
        if ¬cfg.ipAllowed a.addr then m
        else
          let canReclaim := 0 < cfg.deadNodeReclaimTime ∧
            cfg.deadNodeReclaimTime < now - st.stateChange
          if st.state = NodeStateType.left ∨ (st.state = NodeStateType.dead ∧ canReclaim) then
            aliveNodeCont cfg now a bootstrap true st m
          else
            if cfg.hasConflictDelegate then { m with conflicts := m.conflicts + 1 } else m
      else
        aliveNodeCont cfg now a bootstrap false st m

/-! ## suspectNode and deadNode (part_000 lines 1310-1497) -/

/-- The confirmation threshold computed by `suspectNode` (lines 1376-1385):
`k := SuspicionMult - 2`, zeroed when fewer than `k` other nodes could
confirm.  There is no clamping of negative `k`. -/
def suspicionK (suspicionMult : Int) (n : Int) : Int :=
  let k := suspicionMult - 2
  if n - 2 < k then 0 else k

/-- `suspectNode` (part_000 lines 1310-1418).  The timeout callback only
fires later and is not part of the commit; the timer it arms is stored in
`nodeTimers`. -/
noncomputable def suspectNode (cfg : Config) (now : Int) (s : Suspect)
    (m : Memberlist) : Memberlist :=
  match alookup s.node m.nodeMap with
  | none => m
  | some st =>
    if s.incarnation < st.incarnation then m
    else
      match alookup s.node m.nodeTimers with
      | some timer =>
        let c := Confirm now s.frm timer
        { m with nodeTimers := aset s.node c.2 m.nodeTimers }
      | none =>
        if st.state ≠ NodeStateType.alive then m
        else if st.node.name = cfg.name then
          let r := refute m st s.incarnation
          { r.1 with nodeMap := aset s.node r.2.1 r.1.nodeMap }
        else
          let st' := { st with incarnation := s.incarnation,
                               state := NodeStateType.suspect, stateChange := now }
          let m1 := { m with nodeMap := aset s.node st' m.nodeMap }
          let k := suspicionK cfg.suspicionMult (m.numNodes : Int)
          let minT := cfg.suspicionTimeoutFn cfg.suspicionMult (m.numNodes : Int) cfg.probeInterval
          let maxT := cfg.suspicionMaxTimeoutMult * minT
          { m1 with nodeTimers := aset s.node (newSuspicion now s.frm k minT maxT) m1.nodeTimers }

/-- `deadNode` (part_000 lines 1423-1497). -/
def deadNode (cfg : Config) (now : Int) (d : Dead) (m : Memberlist) : Memberlist :=
  match alookup d.node m.nodeMap with
  | none => m
  | some st =>
    if d.incarnation < st.incarnation then m
    else
      let m1 := { m with nodeTimers := aerase d.node m.nodeTimers }
      if st.DeadOrLeft then m1
      else if st.node.name = cfg.name ∧ ¬m1.leftFlag then
        let r := refute m1 st d.incarnation
        { r.1 with nodeMap := aset d.node r.2.1 r.1.nodeMap }
      else
        let st' := { st with incarnation := d.incarnation,
                             state := if d.node = d.frm then NodeStateType.left
                                      else NodeStateType.dead,
                             stateChange := now }
        { m1 with nodeMap := aset d.node st' m1.nodeMap }

/-! ## resetNodes (part_000 lines 667-693) -/

/-- Keep predicate of the dead-node sweep.
Modelled from the spec: `moveDeadNodes` lives in the missing `util.go`;
per §4.4 and the Reap property of §8 it moves out exactly the Dead/Left
entries whose state change is older than `gossip_to_the_dead_time`. -/
def keepNode (cfg : Config) (now : Int) (m : Memberlist) (name : String) : Bool :=
  match alookup name m.nodeMap with
  | some st => !(st.DeadOrLeft && cfg.gossipToTheDeadTime < now - st.stateChange)
  | none => false

/-- `resetNodes` (part_000 lines 667-693): sweep reapable dead nodes out of
the ordered sequence, delete them from the map, store the new length into
`numNodes` and shuffle the survivors.
Modelled from the spec: `shuffleNodes` (missing `util.go`) permutes the
sequence uniformly; a permutation is membership- and length-preserving,
and is modelled as the identity permutation. -/
def resetNodes (cfg : Config) (now : Int) (m : Memberlist) : Memberlist :=
  let kept := m.nodes.filter (keepNode cfg now m)
  let dropped := m.nodes.filter (fun n => !(keepNode cfg now m n))
  { m with nodes := kept,
           nodeMap := m.nodeMap.filter (fun e => !(dropped.contains e.1)),
           numNodes := kept.length }

/-! ## Commit points -/

/-- One commit point of the membership table: a single call to one of the
four table-mutating operations. -/
inductive Msg where
  | aliveM (offset : Nat) (a : Alive) (bootstrap : Bool)
  | suspectM (s : Suspect)
  | deadM (d : Dead)
  | resetM
  deriving DecidableEq, Repr

/-- Step function dispatching one commit. -/
noncomputable def step (cfg : Config) (now : Int) : Msg → Memberlist → Memberlist
  | Msg.aliveM offset a bootstrap => aliveNode cfg now offset a bootstrap
  | Msg.suspectM s => suspectNode cfg now s
  | Msg.deadM d => deadNode cfg now d
  | Msg.resetM => resetNodes cfg now

/-- Stored incarnation of a name (0 when absent). -/
def incOf (m : Memberlist) (name : String) : Nat :=
  match alookup name m.nodeMap with
  | some st => st.incarnation
  | none => 0

/-- The incarnation number carried by a message. -/
def msgInc : Msg → Nat
  | Msg.aliveM _ a _ => a.incarnation
  | Msg.suspectM s => s.incarnation
  | Msg.deadM d => d.incarnation
  | Msg.resetM => 0

/-- Does this commit accept an address update for a known name
(the `updatesNode` path of `aliveNode`, lines 1178-1210)? -/
def acceptsAddrUpdate (cfg : Config) (now : Int) (m : Memberlist) : Msg → Bool
  | Msg.aliveM _ a _ =>
    match alookup a.node m.nodeMap with
    | some st =>
      (st.node.addr ≠ a.addr ∨ st.node.port ≠ a.port : Bool) &&
      cfg.ipAllowed a.addr &&
      (st.state = NodeStateType.left ∨
        (st.state = NodeStateType.dead ∧ 0 < cfg.deadNodeReclaimTime ∧
          cfg.deadNodeReclaimTime < now - st.stateChange) : Bool)
    | none => false
  | _ => false

/-- Does the tail of `aliveNode` reach the self-refutation call
(`m.refute(state, a.Incarnation)`, part_000 line 1260)?  Mirrors the
branch structure of `aliveNodeCont`. -/
def contRefutes (cfg : Config) (a : Alive) (bootstrap : Bool)
    (updatesNode : Bool) (st : NodeState) : Bool :=
  let isLocal := st.node.name = cfg.name
  if a.incarnation ≤ st.incarnation ∧ ¬isLocal ∧ ¬updatesNode then false
  else if a.incarnation < st.incarnation ∧ isLocal then false
  else if ¬bootstrap ∧ isLocal then
    if a.incarnation = st.incarnation ∧ a.meta = st.node.meta ∧
        a.vsn = [st.node.pmin, st.node.pmax, st.node.pcur,
                 st.node.dmin, st.node.dmax, st.node.dcur] then false
    else true
  else false

/-- Does this commit trigger a self-refutation (a call to `refute`)?
Mirrors the branch structure of the three handlers: `aliveNode` refutes a
non-bootstrap message about the local node past its guards (line 1260),
`suspectNode` refutes a fresh suspicion of the local node with no timer
armed (line 1353), and `deadNode` refutes a fresh death report about the
local node when it is not leaving (line 1457). -/
def selfRefutes (cfg : Config) (now : Int) (m : Memberlist) : Msg → Bool
  | Msg.aliveM _ a bootstrap =>
    if m.leftFlag ∧ a.node = cfg.name then false
    else if vsnBad a then false
    else if aliveDelegateRejects cfg a then false
    else
      match alookup a.node m.nodeMap with
      | none =>
        if ¬cfg.ipAllowed a.addr then false
        else contRefutes cfg a bootstrap false (newNodeState a)
      | some st =>
        if st.node.addr ≠ a.addr ∨ st.node.port ≠ a.port then
          if ¬cfg.ipAllowed a.addr then false
          else
            if st.state = NodeStateType.left ∨ (st.state = NodeStateType.dead ∧
                0 < cfg.deadNodeReclaimTime ∧
                cfg.deadNodeReclaimTime < now - st.stateChange) then
              contRefutes cfg a bootstrap true st
            else false
        else contRefutes cfg a bootstrap false st
  | Msg.suspectM s =>
    match alookup s.node m.nodeMap with
    | none => false
    | some st =>
      if s.incarnation < st.incarnation then false
      else
        match alookup s.node m.nodeTimers with
        | some _ => false
        | none =>
          if st.state ≠ NodeStateType.alive then false
          else decide (st.node.name = cfg.name)
  | Msg.deadM d =>
    match alookup d.node m.nodeMap with
    | none => false
    | some st =>
      if d.incarnation < st.incarnation then false
      else if st.DeadOrLeft then false
      else decide (st.node.name = cfg.name ∧ ¬m.leftFlag = true)
  | Msg.resetM => false

/-! ## verifyProtocol (part_000 lines 816-921) -/

/-- Bounds accumulator step for one remote record (lines 828-855): alive
records with a nonempty version list tighten
`(maxpmin, minpmax, maxdmin, mindmax)`. -/
def vpStepRemote (acc : Nat × Nat × Nat × Nat) (rn : PushNodeState) : Nat × Nat × Nat × Nat :=
  if rn.state ≠ NodeStateType.alive then acc
  else if rn.vsn.length = 0 then acc
  else
    (if acc.1 < rn.vsn.getD 0 0 then rn.vsn.getD 0 0 else acc.1,
     if rn.vsn.getD 1 0 < acc.2.1 then rn.vsn.getD 1 0 else acc.2.1,
     if acc.2.2.1 < rn.vsn.getD 3 0 then rn.vsn.getD 3 0 else acc.2.2.1,
     if rn.vsn.getD 4 0 < acc.2.2.2 then rn.vsn.getD 4 0 else acc.2.2.2)

/-- Bounds accumulator step for one local record (lines 857-878): alive
nodes tighten the same four bounds from their version fields. -/
def vpStepLocal (acc : Nat × Nat × Nat × Nat) (n : NodeState) : Nat × Nat × Nat × Nat :=
  if n.state ≠ NodeStateType.alive then acc
  else
    (if acc.1 < n.node.pmin then n.node.pmin else acc.1,
     if n.node.pmax < acc.2.1 then n.node.pmax else acc.2.1,
     if acc.2.2.1 < n.node.dmin then n.node.dmin else acc.2.2.1,
     if n.node.dmax < acc.2.2.2 then n.node.dmax else acc.2.2.2)

/-- The version bounds `(maxpmin, minpmax, maxdmin, mindmax)` computed by
`verifyProtocol` from the remote snapshot and the local node list, starting
from `(0, MaxUint8, 0, MaxUint8)`. -/
def vpBounds (remote : List PushNodeState) (nodes : List NodeState) : Nat × Nat × Nat × Nat :=
  nodes.foldl vpStepLocal (remote.foldl vpStepRemote (0, 255, 0, 255))

/-- Compatibility test of one node's current versions against the bounds
(lines 890-900 / 907-917). -/
def vpBad (b : Nat × Nat × Nat × Nat) (pcur dcur : Nat) : Bool :=
  pcur < b.1 || b.2.1 < pcur || dcur < b.2.2.1 || b.2.2.2 < dcur

/-- Current protocol version a remote record is checked with
(lines 884-888): zero when no version bytes are present. -/
def vpRemotePCur (n : PushNodeState) : Nat :=
  if 0 < n.vsn.length then n.vsn.getD 2 0 else 0

/-- Current delegate version of a remote record (lines 884-888). -/
def vpRemoteDCur (n : PushNodeState) : Nat :=
  if 0 < n.vsn.length then n.vsn.getD 5 0 else 0

/-- `verifyProtocol` (part_000 lines 816-921): `true` means an
incompatibility error is returned.  The verification pass ranges over all
remote records and all local nodes, whatever their state. -/
def verifyProtocol (remote : List PushNodeState) (nodes : List NodeState) : Bool :=
  let b := vpBounds remote nodes
  remote.any (fun n => vpBad b (vpRemotePCur n) (vpRemoteDCur n)) ||
  nodes.any (fun n => vpBad b n.node.pcur n.node.dcur)

/-! ## Definitions following the claims' words (for comparison only) -/

/-- Number of entries of the ordered sequence whose state is neither Dead
nor Left, written from the words of the num-nodes claim. -/
def nonDeadLeftCount (m : Memberlist) : Nat :=
  (m.nodes.filterMap (fun name => alookup name m.nodeMap)).countP
    (fun st => !st.DeadOrLeft)

/-- Version verification as worded by the verify-protocol claim: only
alive peers can cause rejection.  Compared against `verifyProtocol`. -/
def verifyProtocolSpec (remote : List PushNodeState) (nodes : List NodeState) : Bool :=
  let b := vpBounds remote nodes
  remote.any (fun n => n.state = NodeStateType.alive &&
    vpBad b (vpRemotePCur n) (vpRemoteDCur n)) ||
  nodes.any (fun n => n.state = NodeStateType.alive &&
    vpBad b n.node.pcur n.node.dcur)

/-- The threshold formula worded by the suspicion-threshold claim:
`k = max(suspicion_mult − 2, 0)`, then zeroed when `num_nodes − 2 < k`.
Compared against `suspicionK`. -/
def suspicionKSpec (suspicionMult : Int) (n : Int) : Int :=
  let k := Max.max (suspicionMult - 2) 0
  if n - 2 < k then 0 else k

/-- Version lists of the alive remote records that carry versions — the
records that tighten the bounds in `verifyProtocol`. -/
def remoteAliveVsn (remote : List PushNodeState) : List (List Nat) :=
  remote.filterMap (fun rn =>
    if rn.state = NodeStateType.alive ∧ rn.vsn.length ≠ 0 then some rn.vsn else none)

/-- The alive entries of the local node list. -/
def localAlive (nodes : List NodeState) : List NodeState :=
  nodes.filter (fun n => n.state = NodeStateType.alive)

/-- Maximum over the alive cluster of the minimum protocol version
(base 0), as worded by the claim. -/
def maxpminOf (remote : List PushNodeState) (nodes : List NodeState) : Nat :=
  ((remoteAliveVsn remote).map (fun v => v.getD 0 0) ++
    (localAlive nodes).map (fun n => n.node.pmin)).foldl Nat.max 0

/-- Minimum over the alive cluster of the maximum protocol version
(base 255). -/
def minpmaxOf (remote : List PushNodeState) (nodes : List NodeState) : Nat :=
  ((remoteAliveVsn remote).map (fun v => v.getD 1 0) ++
    (localAlive nodes).map (fun n => n.node.pmax)).foldl Nat.min 255

/-- Maximum over the alive cluster of the minimum delegate version. -/
def maxdminOf (remote : List PushNodeState) (nodes : List NodeState) : Nat :=
  ((remoteAliveVsn remote).map (fun v => v.getD 3 0) ++
    (localAlive nodes).map (fun n => n.node.dmin)).foldl Nat.max 0

/-- Minimum over the alive cluster of the maximum delegate version. -/
def mindmaxOf (remote : List PushNodeState) (nodes : List NodeState) : Nat :=
  ((remoteAliveVsn remote).map (fun v => v.getD 4 0) ++
    (localAlive nodes).map (fun n => n.node.dmax)).foldl Nat.min 255

/-- Fold a list of confirmations into a suspicion record, one `Confirm`
call per name. -/
noncomputable def confirmAll (now : Int) (l : List String) (s : Suspicion) : Suspicion :=
  l.foldl (fun acc x => (Confirm now x acc).2) s

/-! ## Concrete fixtures used by witnesses and counterexamples -/

/-- A permissive configuration for local node `"a"`: every IP allowed, no
alive delegate, a conflict delegate installed, reclaim after 5ns. -/
def cfgA : Config :=
  { name := "a", deadNodeReclaimTime := 5, gossipToTheDeadTime := 10,
    suspicionMult := 4, suspicionMaxTimeoutMult := 6, probeInterval := 1,
    ipAllowed := fun _ => true, aliveDelegate := none,
    hasConflictDelegate := true, suspicionTimeoutFn := fun _ _ _ => 1000 }

/-- Like `cfgA` but with `suspicion_mult = 1`, small enough to drive the
suspicion threshold negative. -/
def cfgB : Config :=
  { cfgA with suspicionMult := 1 }

/-- A peer node fixture. -/
def nodeB : Node :=
  { name := "b", addr := [1], port := 1, meta := [],
    pmin := 1, pmax := 1, pcur := 1, dmin := 0, dmax := 0, dcur := 0 }

/-- Table holding `nodeB` in the Dead state since time 0. -/
def mDeadB : Memberlist :=
  { nodeMap := [("b", { node := nodeB, incarnation := 1,
                        state := NodeStateType.dead, stateChange := 0 })],
    nodes := ["b"], numNodes := 1, nodeTimers := [], incarnation := 0,
    awareness := newAwareness 8, leftFlag := false, conflicts := 0, broadcasts := [] }

/-- Table holding `nodeB` in the Alive state since time 0. -/
def mAliveB : Memberlist :=
  { mDeadB with
    nodeMap := [("b", { node := nodeB, incarnation := 1,
                        state := NodeStateType.alive, stateChange := 0 })] }

/-! ## Helper lemmas -/

theorem ApplyDelta_max (d : Int) (a : Awareness) : (ApplyDelta d a).max = a.max := rfl

theorem ApplyDelta_score_bounds (d : Int) (a : Awareness) (hmax : 1 ≤ a.max)
    (h0 : 0 ≤ a.score) (h1 : a.score ≤ a.max - 1) :
    0 ≤ (ApplyDelta d a).score ∧ (ApplyDelta d a).score ≤ a.max - 1 := by
  unfold ApplyDelta
  dsimp only
  split_ifs <;> omega

theorem foldl_ApplyDelta_inv (ds : List Int) (a : Awareness) (hmax : 1 ≤ a.max)
    (h0 : 0 ≤ a.score) (h1 : a.score ≤ a.max - 1) :
    (ds.foldl (fun acc d => ApplyDelta d acc) a).max = a.max ∧
    0 ≤ (ds.foldl (fun acc d => ApplyDelta d acc) a).score ∧
    (ds.foldl (fun acc d => ApplyDelta d acc) a).score ≤ a.max - 1 := by
  induction ds generalizing a with
  | nil => exact ⟨rfl, h0, h1⟩
  | cons d rest ih =>
    have hb := ApplyDelta_score_bounds d a hmax h0 h1
    have hm := ApplyDelta_max d a
    have := ih (ApplyDelta d a) (hm ▸ hmax) hb.1 (hm ▸ hb.2)
    simpa [hm] using this

theorem refute_frame (m : Memberlist) (me : NodeState) (accusedInc : Nat) :
    (refute m me accusedInc).1.nodeMap = m.nodeMap ∧
    (refute m me accusedInc).1.nodes = m.nodes ∧
    (refute m me accusedInc).1.numNodes = m.numNodes ∧
    (refute m me accusedInc).1.nodeTimers = m.nodeTimers ∧
    (refute m me accusedInc).1.leftFlag = m.leftFlag := by
  unfold refute nextIncarnation skipIncarnation
  dsimp only
  split_ifs <;> exact ⟨rfl, rfl, rfl, rfl, rfl⟩

theorem refute_incarnation_gt (m : Memberlist) (me : NodeState) (accusedInc : Nat)
    (h : accusedInc ≤ 2 ^ 32 - 2) :
    accusedInc < ((refute m me accusedInc).2.1).incarnation := by
  unfold refute nextIncarnation skipIncarnation
  dsimp only
  split_ifs with hc <;> dsimp only <;> omega

theorem refute_broadcast_inc (m : Memberlist) (me : NodeState) (accusedInc : Nat) :
    ((refute m me accusedInc).2.2).incarnation = ((refute m me accusedInc).2.1).incarnation := by
  unfold refute nextIncarnation skipIncarnation
  dsimp only

theorem spliceNode_length (offset : Nat) (nodes : List String) (x : String) :
    (spliceNode offset nodes x).length = nodes.length + 1 := by
  simp [spliceNode, listSwap_length]

theorem aliveNodeCont_frame (cfg : Config) (now : Int) (a : Alive) (bootstrap : Bool)
    (u : Bool) (st : NodeState) (m : Memberlist) :
    (aliveNodeCont cfg now a bootstrap u st m).nodes = m.nodes ∧
    (aliveNodeCont cfg now a bootstrap u st m).numNodes = m.numNodes ∧
    (aliveNodeCont cfg now a bootstrap u st m).leftFlag = m.leftFlag := by
  unfold aliveNodeCont refute nextIncarnation skipIncarnation
  dsimp only
  split_ifs <;> exact ⟨rfl, rfl, rfl⟩

theorem suspectNode_frame (cfg : Config) (now : Int) (s : Suspect) (m : Memberlist) :
    (suspectNode cfg now s m).nodes = m.nodes ∧
    (suspectNode cfg now s m).numNodes = m.numNodes := by
  unfold suspectNode refute nextIncarnation skipIncarnation
  rcases hl : alookup s.node m.nodeMap with _ | st
  · exact ⟨rfl, rfl⟩
  · rcases ht : alookup s.node m.nodeTimers with _ | timer <;>
      dsimp only <;> split_ifs <;> exact ⟨rfl, rfl⟩

theorem deadNode_frame (cfg : Config) (now : Int) (d : Dead) (m : Memberlist) :
    (deadNode cfg now d m).nodes = m.nodes ∧
    (deadNode cfg now d m).numNodes = m.numNodes := by
  unfold deadNode refute nextIncarnation skipIncarnation
  rcases hl : alookup d.node m.nodeMap with _ | st
  · exact ⟨rfl, rfl⟩
  · dsimp only
    split_ifs <;> exact ⟨rfl, rfl⟩

theorem Confirm_new (now : Int) (frm : String) (s : Suspicion)
    (h1 : s.n < s.k) (h2 : frm ∉ s.confirmations) :
    (Confirm now frm s).2.n = s.n + 1 ∧ (Confirm now frm s).2.k = s.k ∧
    (Confirm now frm s).2.confirmations = frm :: s.confirmations := by
  simp [Confirm, not_le.2 h1, h2]

theorem confirmAll_count (now : Int) (l : List String) (s : Suspicion)
    (hn : ∀ x ∈ l, x ∉ s.confirmations) (hd : l.Nodup)
    (hk : s.n + l.length ≤ s.k) :
    (confirmAll now l s).n = s.n + l.length ∧ (confirmAll now l s).k = s.k := by
  induction l generalizing s with
  | nil => simp [confirmAll]
  | cons x rest ih =>
    have hx : x ∉ s.confirmations := hn x (List.mem_cons_self x rest)
    have hlt : s.n < s.k := by
      simp only [List.length_cons] at hk
      omega
    have hnew := Confirm_new now x s hlt hx
    have hstep : confirmAll now (x :: rest) s = confirmAll now rest (Confirm now x s).2 := by
      simp [confirmAll]
    have hn' : ∀ y ∈ rest, y ∉ (Confirm now x s).2.confirmations := by
      intro y hy
      rw [hnew.2.2]
      simp only [List.mem_cons, not_or]
      exact ⟨fun hyx => (List.nodup_cons.1 hd).1 (hyx ▸ hy),
             hn y (List.mem_cons_of_mem _ hy)⟩
    have hk' : (Confirm now x s).2.n + rest.length ≤ (Confirm now x s).2.k := by
      rw [hnew.1, hnew.2.1]
      simp only [List.length_cons] at hk
      omega
    have hrec := ih (Confirm now x s).2 hn' (List.nodup_cons.1 hd).2 hk'
    rw [hstep, hrec.1, hrec.2, hnew.1, hnew.2.1]
    refine ⟨?_, rfl⟩
    simp only [List.length_cons, Nat.cast_add, Nat.cast_one]
    ring

theorem remainingSuspicionTime_at_k (k elapsed minT maxT : Int) (hk : 1 ≤ k) :
    remainingSuspicionTime k k elapsed minT maxT = minT - elapsed := by
  unfold remainingSuspicionTime
  dsimp only
  have hlogpos : 0 < Real.log ((k : ℝ) + 1) := by
    apply Real.log_pos
    have : (1 : ℝ) ≤ (k : ℝ) := by exact_mod_cast hk
    linarith
  rw [div_self (ne_of_gt hlogpos)]
  rw [show (maxT : ℝ) / 10 ^ 9 - 1 * ((maxT : ℝ) / 10 ^ 9 - (minT : ℝ) / 10 ^ 9)
      = (minT : ℝ) / 10 ^ 9 from by ring]
  rw [show (1000 : ℝ) * ((minT : ℝ) / 10 ^ 9) = (minT : ℝ) / 10 ^ 6 from by ring]
  have hf := Int.floor_le ((minT : ℝ) / 10 ^ 6)
  have hle : ⌊(minT : ℝ) / 10 ^ 6⌋ * 1000000 ≤ minT := by
    have h2 : ((⌊(minT : ℝ) / 10 ^ 6⌋ : ℝ)) * 1000000 ≤ (minT : ℝ) := by
      calc ((⌊(minT : ℝ) / 10 ^ 6⌋ : ℝ)) * 1000000
          ≤ ((minT : ℝ) / 10 ^ 6) * 1000000 :=
            mul_le_mul_of_nonneg_right hf (by norm_num)
        _ = (minT : ℝ) := by ring
    exact_mod_cast h2
  split_ifs with h
  · rfl
  · omega

theorem ite_lt_max (a b : Nat) : (if a < b then b else a) = Nat.max a b := by
  rcases Nat.lt_or_ge a b with h | h
  · simp [h, Nat.max_eq_right (Nat.le_of_lt h)]
  · simp [Nat.not_lt.2 h, Nat.max_eq_left h]

theorem ite_lt_min (a b : Nat) : (if b < a then b else a) = Nat.min a b := by
  rcases Nat.lt_or_ge b a with h | h
  · simp [h, Nat.min_eq_right (Nat.le_of_lt h)]
  · simp [Nat.not_lt.2 h, Nat.min_eq_left h]

theorem foldl_vpStepRemote_eq (l : List PushNodeState) (acc : Nat × Nat × Nat × Nat) :
    l.foldl vpStepRemote acc =
      ((remoteAliveVsn l).foldl (fun b v => Nat.max b (v.getD 0 0)) acc.1,
       (remoteAliveVsn l).foldl (fun b v => Nat.min b (v.getD 1 0)) acc.2.1,
       (remoteAliveVsn l).foldl (fun b v => Nat.max b (v.getD 3 0)) acc.2.2.1,
       (remoteAliveVsn l).foldl (fun b v => Nat.min b (v.getD 4 0)) acc.2.2.2) := by
  induction l generalizing acc with
  | nil => simp [remoteAliveVsn]
  | cons hd tl ih =>
    obtain ⟨a1, a2, a3, a4⟩ := acc
    by_cases h1 : hd.state = NodeStateType.alive
    · by_cases h2 : hd.vsn.length = 0
      · have h2' : hd.vsn = [] := List.length_eq_zero.1 h2
        simp [remoteAliveVsn, vpStepRemote, List.filterMap_cons, h1, h2, h2', ih]
      · have h2' : ¬hd.vsn = [] := by
          simpa [List.length_eq_zero] using h2
        simp [remoteAliveVsn, vpStepRemote, List.filterMap_cons, h1, h2, h2', ih,
          ite_lt_max, ite_lt_min]
    · simp [remoteAliveVsn, vpStepRemote, List.filterMap_cons, h1, ih]

theorem foldl_vpStepLocal_eq (l : List NodeState) (acc : Nat × Nat × Nat × Nat) :
    l.foldl vpStepLocal acc =
      ((localAlive l).foldl (fun b n => Nat.max b n.node.pmin) acc.1,
       (localAlive l).foldl (fun b n => Nat.min b n.node.pmax) acc.2.1,
       (localAlive l).foldl (fun b n => Nat.max b n.node.dmin) acc.2.2.1,
       (localAlive l).foldl (fun b n => Nat.min b n.node.dmax) acc.2.2.2) := by
  induction l generalizing acc with
  | nil => simp [localAlive]
  | cons hd tl ih =>
    obtain ⟨a1, a2, a3, a4⟩ := acc
    by_cases h1 : hd.state = NodeStateType.alive
    · simp [localAlive, vpStepLocal, List.filter_cons, h1, ih, ite_lt_max, ite_lt_min]
    · simp [localAlive, vpStepLocal, List.filter_cons, h1, ih]

theorem vpBounds_eq (remote : List PushNodeState) (nodes : List NodeState) :
    vpBounds remote nodes =
      (maxpminOf remote nodes, minpmaxOf remote nodes,
       maxdminOf remote nodes, mindmaxOf remote nodes) := by
  unfold vpBounds maxpminOf minpmaxOf maxdminOf mindmaxOf
  rw [foldl_vpStepRemote_eq, foldl_vpStepLocal_eq]
  simp [List.foldl_append, List.foldl_map, localAlive]

theorem incOf_eq (m : Memberlist) (name : String) (st : NodeState)
    (h : alookup name m.nodeMap = some st) : incOf m name = st.incarnation := by
  simp [incOf, h]

theorem aliveUpdatedState_incarnation (now : Int) (a : Alive) (st : NodeState) :
    (aliveUpdatedState now a st).incarnation = a.incarnation := by
  simp [aliveUpdatedState]

theorem aliveNodeCont_lookup_ne (cfg : Config) (now : Int) (a : Alive) (bootstrap : Bool)
    (u : Bool) (st : NodeState) (m : Memberlist) (name : String) (h : name ≠ a.node) :
    alookup name (aliveNodeCont cfg now a bootstrap u st m).nodeMap
      = alookup name m.nodeMap := by
  unfold aliveNodeCont refute nextIncarnation skipIncarnation
  dsimp only
  split_ifs <;> simp [alookup_aset_ne _ _ _ _ h]

theorem aliveNodeCont_inc_mono (cfg : Config) (now : Int) (a : Alive) (bootstrap : Bool)
    (st : NodeState) (m : Memberlist) (name : String)
    (hst : alookup a.node m.nodeMap = some st)
    (hwrap : contRefutes cfg a bootstrap false st = true → a.incarnation ≤ 2 ^ 32 - 2) :
    incOf m name ≤ incOf (aliveNodeCont cfg now a bootstrap false st m) name := by
  by_cases hname : name = a.node
  · subst hname
    unfold aliveNodeCont
    dsimp only
    simp only [Bool.false_eq_true, not_false_eq_true, and_true]
    split_ifs with h1 h2 h3 h4
    · exact le_rfl
    · exact le_rfl
    · simp [incOf, hst]
    · have hge : st.incarnation ≤ a.incarnation := by
        rcases le_or_lt st.incarnation a.incarnation with h | h
        · exact h
        · exact absurd ⟨h, h3.2⟩ h2
      have hcr : contRefutes cfg a bootstrap false st = true := by
        unfold contRefutes
        dsimp only
        rw [if_neg (fun hc => h1 ⟨hc.1, hc.2.1⟩), if_neg h2, if_pos h3, if_neg h4]
      have hgt := refute_incarnation_gt
        { m with nodeTimers := aerase a.node m.nodeTimers } st a.incarnation (hwrap hcr)
      rw [incOf_eq m a.node st hst]
      simp only [incOf, alookup_aset_self]
      omega
    · rw [incOf_eq m a.node st hst]
      simp only [incOf, alookup_aset_self, aliveUpdatedState_incarnation]
      by_cases hloc : st.node.name = cfg.name
      · have : ¬(a.incarnation < st.incarnation) := fun hlt => h2 ⟨hlt, hloc⟩
        omega
      · have : ¬(a.incarnation ≤ st.incarnation) := fun hle => h1 ⟨hle, hloc⟩
        omega
  · have heq : incOf (aliveNodeCont cfg now a bootstrap false st m) name = incOf m name := by
      simp [incOf, aliveNodeCont_lookup_ne cfg now a bootstrap false st m name hname]
    rw [heq]

theorem aliveNode_inc_mono (cfg : Config) (now : Int) (offset : Nat) (a : Alive)
    (bootstrap : Bool) (m : Memberlist) (name : String)
    (hwrap : selfRefutes cfg now m (Msg.aliveM offset a bootstrap) = true →
      a.incarnation ≤ 2 ^ 32 - 2)
    (hacc : acceptsAddrUpdate cfg now m (Msg.aliveM offset a bootstrap) = false) :
    incOf m name ≤ incOf (aliveNode cfg now offset a bootstrap m) name := by
  unfold aliveNode
  by_cases g1 : m.leftFlag = true ∧ a.node = cfg.name
  · rw [if_pos g1]
  · rw [if_neg g1]
    by_cases g2 : vsnBad a = true
    · rw [if_pos g2]
    · rw [if_neg g2]
      by_cases g3 : aliveDelegateRejects cfg a = true
      · rw [if_pos g3]
      · rw [if_neg g3]
        rcases hl : alookup a.node m.nodeMap with _ | st
        · simp only [hl]
          by_cases hip : cfg.ipAllowed a.addr = true
          · rw [if_neg (by simp [hip])]
            by_cases hname : name = a.node
            · subst hname
              simp [incOf, hl]
            · have h1 : alookup name (aset a.node (newNodeState a) m.nodeMap)
                  = alookup name m.nodeMap := alookup_aset_ne _ _ _ _ hname
              have h2 := aliveNodeCont_lookup_ne cfg now a bootstrap false (newNodeState a)
                { m with nodeMap := aset a.node (newNodeState a) m.nodeMap,
                         nodes := spliceNode offset m.nodes a.node,
                         numNodes := m.numNodes + 1 } name hname
              simp [incOf, h2, h1]
          · rw [if_pos (by simp [hip])]
        · simp only [hl]
          by_cases hdiff : st.node.addr ≠ a.addr ∨ st.node.port ≠ a.port
          · rw [if_pos hdiff]
            by_cases hip : cfg.ipAllowed a.addr = true
            · rw [if_neg (by simp [hip])]
              by_cases hupd : st.state = NodeStateType.left ∨
                  (st.state = NodeStateType.dead ∧ 0 < cfg.deadNodeReclaimTime ∧
                    cfg.deadNodeReclaimTime < now - st.stateChange)
              · exfalso
                have htrue : acceptsAddrUpdate cfg now m (Msg.aliveM offset a bootstrap)
                    = true := by
                  simp [acceptsAddrUpdate, hl, hdiff, hip, hupd]
                rw [htrue] at hacc
                exact Bool.noConfusion hacc
              · rw [if_neg hupd]
                split_ifs <;> exact le_rfl
            · rw [if_pos (by simp [hip])]
          · rw [if_neg hdiff]
            refine aliveNodeCont_inc_mono cfg now a bootstrap st m name hl (fun hc => hwrap ?_)
            simp only [selfRefutes]
            rw [if_neg g1, if_neg (by simp [g2]), if_neg (by simp [g3])]
            simp only [hl]
            rw [if_neg hdiff]
            exact hc

theorem suspectNode_inc_mono (cfg : Config) (now : Int) (s : Suspect) (m : Memberlist)
    (name : String)
    (hwrap : selfRefutes cfg now m (Msg.suspectM s) = true → s.incarnation ≤ 2 ^ 32 - 2) :
    incOf m name ≤ incOf (suspectNode cfg now s m) name := by
  unfold suspectNode
  rcases hl : alookup s.node m.nodeMap with _ | st
  · exact le_rfl
  · simp only [hl]
    by_cases h1 : s.incarnation < st.incarnation
    · rw [if_pos h1]
    · rw [if_neg h1]
      rcases ht : alookup s.node m.nodeTimers with _ | timer
      · simp only [ht]
        by_cases h2 : st.state ≠ NodeStateType.alive
        · rw [if_pos h2]
        · rw [if_neg h2]
          by_cases h3 : st.node.name = cfg.name
          · rw [if_pos h3]
            have hsr : selfRefutes cfg now m (Msg.suspectM s) = true := by
              unfold selfRefutes
              simp only [hl]
              rw [if_neg h1]
              simp only [ht]
              rw [if_neg h2]
              simp [h3]
            by_cases hname : name = s.node
            · subst hname
              rw [incOf_eq m s.node st hl]
              simp only [incOf, alookup_aset_self]
              have hgt := refute_incarnation_gt m st s.incarnation (hwrap hsr)
              omega
            · simp [incOf, alookup_aset_ne _ _ _ _ hname,
                (refute_frame m st s.incarnation).1]
          · rw [if_neg h3]
            by_cases hname : name = s.node
            · subst hname
              rw [incOf_eq m s.node st hl]
              simp only [incOf, alookup_aset_self]
              omega
            · simp [incOf, alookup_aset_ne _ _ _ _ hname]
      · simp only [ht]
        exact le_rfl

theorem deadNode_inc_mono (cfg : Config) (now : Int) (d : Dead) (m : Memberlist)
    (name : String)
    (hwrap : selfRefutes cfg now m (Msg.deadM d) = true → d.incarnation ≤ 2 ^ 32 - 2) :
    incOf m name ≤ incOf (deadNode cfg now d m) name := by
  unfold deadNode
  rcases hl : alookup d.node m.nodeMap with _ | st
  · exact le_rfl
  · simp only [hl]
    by_cases h1 : d.incarnation < st.incarnation
    · rw [if_pos h1]
    · rw [if_neg h1]
      by_cases h2 : st.DeadOrLeft = true
      · rw [if_pos h2]
        exact le_rfl
      · rw [if_neg h2]
        by_cases h3 : st.node.name = cfg.name ∧
            ¬({ m with nodeTimers := aerase d.node m.nodeTimers } : Memberlist).leftFlag = true
        · rw [if_pos h3]
          have hdr : selfRefutes cfg now m (Msg.deadM d) = true := by
            unfold selfRefutes
            simp only [hl]
            rw [if_neg h1, if_neg h2]
            simp only [decide_eq_true_eq]
            exact ⟨h3.1, h3.2⟩
          by_cases hname : name = d.node
          · subst hname
            rw [incOf_eq m d.node st hl]
            simp only [incOf, alookup_aset_self]
            have hgt := refute_incarnation_gt
              { m with nodeTimers := aerase d.node m.nodeTimers } st d.incarnation (hwrap hdr)
            omega
          · simp [incOf, alookup_aset_ne _ _ _ _ hname,
              (refute_frame { m with nodeTimers := aerase d.node m.nodeTimers }
                st d.incarnation).1]
        · rw [if_neg h3]
          by_cases hname : name = d.node
          · subst hname
            rw [incOf_eq m d.node st hl]
            simp only [incOf, alookup_aset_self]
            omega
          · simp [incOf, alookup_aset_ne _ _ _ _ hname]

theorem aliveUpdatedState_fields (now : Int) (a : Alive) (st : NodeState) :
    (aliveUpdatedState now a st).node.addr = a.addr ∧
    (aliveUpdatedState now a st).node.port = a.port ∧
    (aliveUpdatedState now a st).node.name = st.node.name := by
  unfold aliveUpdatedState
  dsimp only
  split_ifs <;> exact ⟨rfl, rfl, rfl⟩

theorem aliveNodeCont_drop (cfg : Config) (now : Int) (a : Alive) (bootstrap : Bool)
    (st : NodeState) (m : Memberlist)
    (h1 : a.incarnation ≤ st.incarnation) (h2 : st.node.name ≠ cfg.name) :
    aliveNodeCont cfg now a bootstrap false st m = m := by
  unfold aliveNodeCont
  dsimp only
  rw [if_pos ⟨h1, h2, by simp⟩]

theorem aliveNodeCont_update (cfg : Config) (now : Int) (a : Alive) (bootstrap : Bool)
    (u : Bool) (st : NodeState) (m : Memberlist)
    (h2 : st.node.name ≠ cfg.name)
    (hcond : u = true ∨ st.incarnation < a.incarnation) :
    aliveNodeCont cfg now a bootstrap u st m =
      { m with nodeTimers := aerase a.node m.nodeTimers,
               broadcasts := a :: m.broadcasts,
               nodeMap := aset a.node (aliveUpdatedState now a st) m.nodeMap } := by
  unfold aliveNodeCont
  dsimp only
  rw [if_neg, if_neg, if_neg]
  · exact fun h => h2 h.2
  · exact fun h => h2 h.2
  · rcases hcond with hu | hlt
    · exact fun h => h.2.2 (by simp [hu])
    · exact fun h => absurd h.1 (by omega)

/-- The branch structure of `aliveNode` once the three entry gates
(self-rejoin after leave, version sanity, alive delegate) are known to
pass. -/
theorem aliveNode_open (cfg : Config) (now : Int) (o : Nat) (a : Alive) (mm : Memberlist)
    (hnl : a.node ≠ cfg.name)
    (g2 : vsnBad a = false) (g3 : aliveDelegateRejects cfg a = false) :
    aliveNode cfg now o a false mm =
      match alookup a.node mm.nodeMap with
      | none =>
        if ¬cfg.ipAllowed a.addr then mm
        else aliveNodeCont cfg now a false false (newNodeState a)
          { mm with nodeMap := aset a.node (newNodeState a) mm.nodeMap,
                    nodes := spliceNode o mm.nodes a.node,
                    numNodes := mm.numNodes + 1 }
      | some st =>
        if st.node.addr ≠ a.addr ∨ st.node.port ≠ a.port then
          if ¬cfg.ipAllowed a.addr then mm
          else
            if st.state = NodeStateType.left ∨ (st.state = NodeStateType.dead ∧
                0 < cfg.deadNodeReclaimTime ∧
                cfg.deadNodeReclaimTime < now - st.stateChange) then
              aliveNodeCont cfg now a false true st mm
            else
              if cfg.hasConflictDelegate then { mm with conflicts := mm.conflicts + 1 }
              else mm
        else aliveNodeCont cfg now a false false st mm := by
  unfold aliveNode
  rw [if_neg (fun h => hnl h.2), if_neg (by simp [g2]), if_neg (by simp [g3])]

/-- A second identical alive message bounces off the stale-incarnation
guard when the stored entry already carries the message's address, port
and an incarnation at least as large. -/
theorem aliveNode_second_noop (cfg : Config) (now : Int) (o : Nat) (a : Alive)
    (m1 : Memberlist) (st1 : NodeState)
    (hnl : a.node ≠ cfg.name)
    (g2 : vsnBad a = false) (g3 : aliveDelegateRejects cfg a = false)
    (hl1 : alookup a.node m1.nodeMap = some st1)
    (haddr : st1.node.addr = a.addr) (hport : st1.node.port = a.port)
    (hname : st1.node.name = a.node)
    (hinc : a.incarnation ≤ st1.incarnation) :
    aliveNode cfg now o a false m1 = m1 := by
  rw [aliveNode_open cfg now o a m1 hnl g2 g3]
  simp only [hl1]
  rw [if_neg (by
    rintro (h | h)
    · exact h haddr
    · exact h hport)]
  exact aliveNodeCont_drop cfg now a false st1 m1 hinc (by rw [hname]; exact hnl)

/-! ## Claim theorems -/

/-- C9: for every alive message about a non-local node (with the table
keyed consistently: an entry stored under the message's name carries that
name), calling `aliveNode(a, nil, false)` twice in succession (same
current time; the random splice offsets may differ) leaves the node map,
the ordered sequence and `num_nodes` exactly as after calling it once:
the second call is a no-op on the membership table. -/
theorem aliveNode_idem (cfg : Config) (now : Int) (o1 o2 : Nat) (a : Alive)
    (m : Memberlist)
    (hnl : a.node ≠ cfg.name)
    (hkey : ∀ st, alookup a.node m.nodeMap = some st → st.node.name = a.node) :
    (aliveNode cfg now o2 a false (aliveNode cfg now o1 a false m)).nodeMap
      = (aliveNode cfg now o1 a false m).nodeMap ∧
    (aliveNode cfg now o2 a false (aliveNode cfg now o1 a false m)).nodes
      = (aliveNode cfg now o1 a false m).nodes ∧
    (aliveNode cfg now o2 a false (aliveNode cfg now o1 a false m)).numNodes
      = (aliveNode cfg now o1 a false m).numNodes := by
  have hg1 : ∀ mm : Memberlist, ¬(mm.leftFlag = true ∧ a.node = cfg.name) :=
    fun _ h => hnl h.2
  by_cases g2 : vsnBad a = true
  · have hdrop : ∀ (o : Nat) (mm : Memberlist), aliveNode cfg now o a false mm = mm := by
      intro o mm
      unfold aliveNode
      rw [if_neg (hg1 mm), if_pos g2]
    simp only [hdrop]
    exact ⟨trivial, trivial, trivial⟩
  · by_cases g3 : aliveDelegateRejects cfg a = true
    · have hdrop : ∀ (o : Nat) (mm : Memberlist), aliveNode cfg now o a false mm = mm := by
        intro o mm
        unfold aliveNode
        rw [if_neg (hg1 mm), if_neg (by simp [g2]), if_pos g3]
      simp only [hdrop]
      exact ⟨trivial, trivial, trivial⟩
    · have g2' : vsnBad a = false := by simpa using g2
      have g3' : aliveDelegateRejects cfg a = false := by simpa using g3
      rcases hl : alookup a.node m.nodeMap with _ | st
      · by_cases hip : cfg.ipAllowed a.addr = true
        · have h1 : aliveNode cfg now o1 a false m
              = aliveNodeCont cfg now a false false (newNodeState a)
                { m with nodeMap := aset a.node (newNodeState a) m.nodeMap,
                         nodes := spliceNode o1 m.nodes a.node,
                         numNodes := m.numNodes + 1 } := by
            rw [aliveNode_open cfg now o1 a m hnl g2' g3']
            simp only [hl]
            rw [if_neg (by simp [hip])]
          by_cases hz : a.incarnation ≤ (newNodeState a).incarnation
          · rw [h1, aliveNodeCont_drop cfg now a false (newNodeState a) _ hz
              (by show a.node ≠ cfg.name; exact hnl)]
            rw [aliveNode_second_noop cfg now o2 a _ (newNodeState a) hnl g2' g3'
              (alookup_aset_self _ _ _) rfl rfl rfl hz]
            exact ⟨rfl, rfl, rfl⟩
          · rw [h1, aliveNodeCont_update cfg now a false false (newNodeState a) _
              (by show a.node ≠ cfg.name; exact hnl) (Or.inr (by omega))]
            have hf := aliveUpdatedState_fields now a (newNodeState a)
            rw [aliveNode_second_noop cfg now o2 a _
              (aliveUpdatedState now a (newNodeState a)) hnl g2' g3'
              (alookup_aset_self _ _ _) hf.1 hf.2.1
              (by rw [hf.2.2]; rfl)
              (by rw [aliveUpdatedState_incarnation])]
            exact ⟨rfl, rfl, rfl⟩
        · have hdrop : ∀ (o : Nat), aliveNode cfg now o a false m = m := by
            intro o
            rw [aliveNode_open cfg now o a m hnl g2' g3']
            simp only [hl]
            rw [if_pos (by simp [hip])]
          simp only [hdrop]
          exact ⟨trivial, trivial, trivial⟩
      · have hname : st.node.name = a.node := hkey st hl
        have hnotloc : st.node.name ≠ cfg.name := by rw [hname]; exact hnl
        by_cases hdiff : st.node.addr ≠ a.addr ∨ st.node.port ≠ a.port
        · by_cases hip : cfg.ipAllowed a.addr = true
          · by_cases hupd : st.state = NodeStateType.left ∨ (st.state = NodeStateType.dead ∧
                0 < cfg.deadNodeReclaimTime ∧
                cfg.deadNodeReclaimTime < now - st.stateChange)
            · have h1 : aliveNode cfg now o1 a false m
                  = aliveNodeCont cfg now a false true st m := by
                rw [aliveNode_open cfg now o1 a m hnl g2' g3']
                simp only [hl]
                rw [if_pos hdiff, if_neg (by simp [hip]), if_pos hupd]
              rw [h1, aliveNodeCont_update cfg now a false true st m hnotloc (Or.inl rfl)]
              have hf := aliveUpdatedState_fields now a st
              rw [aliveNode_second_noop cfg now o2 a _ (aliveUpdatedState now a st)
                hnl g2' g3' (alookup_aset_self _ _ _) hf.1 hf.2.1
                (by rw [hf.2.2]; exact hname)
                (by rw [aliveUpdatedState_incarnation])]
              exact ⟨rfl, rfl, rfl⟩
            · have h1 : aliveNode cfg now o1 a false m
                  = (if cfg.hasConflictDelegate then { m with conflicts := m.conflicts + 1 }
                     else m) := by
                rw [aliveNode_open cfg now o1 a m hnl g2' g3']
                simp only [hl]
                rw [if_pos hdiff, if_neg (by simp [hip]), if_neg hupd]
              by_cases hcd : cfg.hasConflictDelegate = true
              · have h2 : aliveNode cfg now o2 a false { m with conflicts := m.conflicts + 1 }
                    = { m with conflicts := m.conflicts + 1 + 1 } := by
                  rw [aliveNode_open cfg now o2 a _ hnl g2' g3']
                  simp only [hl]
                  rw [if_pos hdiff, if_neg (by simp [hip]), if_neg hupd, if_pos hcd]
                rw [h1, if_pos hcd, h2]
                exact ⟨rfl, rfl, rfl⟩
              · have hcd' : cfg.hasConflictDelegate = false := by simpa using hcd
                have h2 : aliveNode cfg now o2 a false m = m := by
                  rw [aliveNode_open cfg now o2 a m hnl g2' g3']
                  simp only [hl]
                  rw [if_pos hdiff, if_neg (by simp [hip]), if_neg hupd, if_neg (by simp [hcd'])]
                rw [h1, if_neg (by simp [hcd']), h2]
                exact ⟨rfl, rfl, rfl⟩
          · have hdrop : ∀ (o : Nat), aliveNode cfg now o a false m = m := by
              intro o
              rw [aliveNode_open cfg now o a m hnl g2' g3']
              simp only [hl]
              rw [if_pos hdiff, if_pos (by simp [hip])]
            simp only [hdrop]
            exact ⟨trivial, trivial, trivial⟩
        · have h1 : aliveNode cfg now o1 a false m
              = aliveNodeCont cfg now a false false st m := by
            rw [aliveNode_open cfg now o1 a m hnl g2' g3']
            simp only [hl]
            rw [if_neg hdiff]
          by_cases hle : a.incarnation ≤ st.incarnation
          · have hback : ∀ (o : Nat), aliveNode cfg now o a false m = m := by
              intro o
              rw [aliveNode_open cfg now o a m hnl g2' g3']
              simp only [hl]
              rw [if_neg hdiff]
              exact aliveNodeCont_drop cfg now a false st m hle hnotloc
            simp only [hback]
            exact ⟨trivial, trivial, trivial⟩
          · rw [h1, aliveNodeCont_update cfg now a false false st m hnotloc
              (Or.inr (by omega))]
            have hf := aliveUpdatedState_fields now a st
            rw [aliveNode_second_noop cfg now o2 a _ (aliveUpdatedState now a st)
              hnl g2' g3' (alookup_aset_self _ _ _) hf.1 hf.2.1
              (by rw [hf.2.2]; exact hname)
              (by rw [aliveUpdatedState_incarnation])]
            exact ⟨rfl, rfl, rfl⟩

theorem aliveNode_idem_witness :
    (aliveNode cfgA 0 0
      { incarnation := 1, node := "b", addr := [1], port := 1, meta := [], vsn := [] }
      false (aliveNode cfgA 0 0
        { incarnation := 1, node := "b", addr := [1], port := 1, meta := [], vsn := [] }
        false (initMemberlist 8))).nodeMap
      = (aliveNode cfgA 0 0
        { incarnation := 1, node := "b", addr := [1], port := 1, meta := [], vsn := [] }
        false (initMemberlist 8)).nodeMap ∧
    (aliveNode cfgA 0 0
      { incarnation := 1, node := "b", addr := [1], port := 1, meta := [], vsn := [] }
      false (aliveNode cfgA 0 0
        { incarnation := 1, node := "b", addr := [1], port := 1, meta := [], vsn := [] }
        false (initMemberlist 8))).nodes
      = (aliveNode cfgA 0 0
        { incarnation := 1, node := "b", addr := [1], port := 1, meta := [], vsn := [] }
        false (initMemberlist 8)).nodes ∧
    (aliveNode cfgA 0 0
      { incarnation := 1, node := "b", addr := [1], port := 1, meta := [], vsn := [] }
      false (aliveNode cfgA 0 0
        { incarnation := 1, node := "b", addr := [1], port := 1, meta := [], vsn := [] }
        false (initMemberlist 8))).numNodes
      = (aliveNode cfgA 0 0
        { incarnation := 1, node := "b", addr := [1], port := 1, meta := [], vsn := [] }
        false (initMemberlist 8)).numNodes :=
  aliveNode_idem cfgA 0 0 0
    { incarnation := 1, node := "b", addr := [1], port := 1, meta := [], vsn := [] }
    (initMemberlist 8) (by decide)
    (fun st h => by simp [initMemberlist, alookup] at h)

/-- C2, counterexample: a node becomes Alive at incarnation 5, leaves
(state Left, incarnation 5), and then an alive message with a different
address and incarnation 3 is accepted through the address-reclaim path of
`aliveNode`, which bypasses the incarnation guard: the stored incarnation
drops from 5 to 3 across a sequence of handler calls. -/
theorem incarnation_mono_cex :
    incOf (deadNode cfgA 1 { incarnation := 5, node := "b", frm := "b" }
      (aliveNode cfgA 0 0
        { incarnation := 5, node := "b", addr := [1], port := 1, meta := [], vsn := [] }
        false (initMemberlist 8))) "b" = 5 ∧
    incOf (aliveNode cfgA 2 0
      { incarnation := 3, node := "b", addr := [2], port := 1, meta := [], vsn := [] }
      false
      (deadNode cfgA 1 { incarnation := 5, node := "b", frm := "b" }
        (aliveNode cfgA 0 0
          { incarnation := 5, node := "b", addr := [1], port := 1, meta := [], vsn := [] }
          false (initMemberlist 8)))) "b" = 3 := by
  constructor <;> decide

/-- C2 (amended): for every node name, across any sequence of calls to the
state-change handlers `aliveNode`, `suspectNode` and `deadNode`, the
stored incarnation never decreases, except in exactly two situations: an
`aliveNode` call that accepts an address update for a stored Left or
reclaimable Dead entry (that path stores the incoming incarnation
unconditionally), and a commit that triggers a self-refutation (`refute`)
of a message carrying incarnation `2^32 - 1`, which wraps the `uint32`
counter.  Any other commit — including messages about other nodes at any
incarnation — is monotone.  The single-step statement extends to
sequences by induction. -/
theorem step_incarnation_mono (cfg : Config) (now : Int) (msg : Msg) (m : Memberlist)
    (name : String)
    (hmsg : msg ≠ Msg.resetM)
    (hwrap : selfRefutes cfg now m msg = true → msgInc msg ≤ 2 ^ 32 - 2)
    (hacc : acceptsAddrUpdate cfg now m msg = false) :
    incOf m name ≤ incOf (step cfg now msg m) name := by
  cases msg with
  | aliveM offset a bootstrap => exact aliveNode_inc_mono cfg now offset a bootstrap m name hwrap hacc
  | suspectM s => exact suspectNode_inc_mono cfg now s m name hwrap
  | deadM d => exact deadNode_inc_mono cfg now d m name hwrap
  | resetM => exact absurd rfl hmsg

theorem step_incarnation_mono_witness :
    incOf mAliveB "b" ≤
      incOf (step cfgA 0 (Msg.suspectM { incarnation := 2, node := "b", frm := "c" })
        mAliveB) "b" :=
  step_incarnation_mono cfgA 0 (Msg.suspectM { incarnation := 2, node := "b", frm := "c" })
    mAliveB "b" (by decide) (by decide) (by decide)

/-- C1, counterexample: from the empty (reachable) table, a single
`aliveNode` commit for an unknown name with incarnation 0 inserts the node
in the Dead state, increments `num_nodes` to 1, and then drops the message
at the stale-incarnation guard: at this commit point `num_nodes = 1` but
the sequence contains no non-Dead-non-Left entry. -/
theorem numNodes_live_count_cex :
    (step cfgA 0 (Msg.aliveM 0
        { incarnation := 0, node := "b", addr := [1], port := 1, meta := [], vsn := [] }
        false) (initMemberlist 8)).numNodes = 1 ∧
    nonDeadLeftCount (step cfgA 0 (Msg.aliveM 0
        { incarnation := 0, node := "b", addr := [1], port := 1, meta := [], vsn := [] }
        false) (initMemberlist 8)) = 0 := by
  constructor <;> decide

/-- C1 (amended): at every commit point — after any single call to
`aliveNode`, `suspectNode`, `deadNode` or `resetNodes` from a state
satisfying it — `num_nodes` equals the length of the ordered node
sequence, Dead and Left entries not yet reaped included (the counter is
approximate: it is updated only on insert and on reap, not when entries
turn Dead or Left). -/
theorem step_numNodes_eq_length (cfg : Config) (now : Int) (msg : Msg) (m : Memberlist)
    (h : m.numNodes = m.nodes.length) :
    (step cfg now msg m).numNodes = (step cfg now msg m).nodes.length := by
  cases msg with
  | aliveM offset a bootstrap =>
    have contNum : ∀ u st' m', (aliveNodeCont cfg now a bootstrap u st' m').numNodes
        = Memberlist.numNodes m' := fun u st' m' => (aliveNodeCont_frame cfg now a bootstrap u st' m').2.1
    have contNodes : ∀ u st' m', (aliveNodeCont cfg now a bootstrap u st' m').nodes
        = Memberlist.nodes m' := fun u st' m' => (aliveNodeCont_frame cfg now a bootstrap u st' m').1
    show (aliveNode cfg now offset a bootstrap m).numNodes
        = (aliveNode cfg now offset a bootstrap m).nodes.length
    unfold aliveNode
    rcases hl : alookup a.node m.nodeMap with _ | st <;>
      dsimp only <;> split_ifs <;>
      simp_all [contNum, contNodes, spliceNode_length]
  | suspectM s =>
    show (suspectNode cfg now s m).numNodes = (suspectNode cfg now s m).nodes.length
    rw [(suspectNode_frame cfg now s m).1, (suspectNode_frame cfg now s m).2]
    exact h
  | deadM d =>
    show (deadNode cfg now d m).numNodes = (deadNode cfg now d m).nodes.length
    rw [(deadNode_frame cfg now d m).1, (deadNode_frame cfg now d m).2]
    exact h
  | resetM =>
    show (resetNodes cfg now m).numNodes = (resetNodes cfg now m).nodes.length
    simp [resetNodes]

theorem step_numNodes_eq_length_witness :
    (step cfgA 0 (Msg.deadM { incarnation := 1, node := "x", frm := "y" })
      (initMemberlist 8)).numNodes =
    (step cfgA 0 (Msg.deadM { incarnation := 1, node := "x", frm := "y" })
      (initMemberlist 8)).nodes.length :=
  step_numNodes_eq_length cfgA 0 _ (initMemberlist 8) (by decide)

/-- C4, counterexample: the stored node is Dead since time 0 and the
elapsed time at `now = 5` equals `dead_node_reclaim_time = 5`, so the
claim requires the address update to be accepted, but the code demands a
strictly larger elapsed time: the conflict delegate fires, the message is
dropped and the stored address stays `[1]`. -/
theorem aliveNode_reclaim_boundary_cex :
    (aliveNode cfgA 5 0
      { incarnation := 2, node := "b", addr := [2], port := 1, meta := [], vsn := [] }
      false mDeadB).nodeMap = mDeadB.nodeMap ∧
    (aliveNode cfgA 5 0
      { incarnation := 2, node := "b", addr := [2], port := 1, meta := [], vsn := [] }
      false mDeadB).conflicts = 1 ∧
    ((alookup "b" (aliveNode cfgA 5 0
      { incarnation := 2, node := "b", addr := [2], port := 1, meta := [], vsn := [] }
      false mDeadB).nodeMap).map fun st => st.node.addr) = some [1] := by
  refine ⟨by decide, by decide, by decide⟩

/-- C4 (amended): for an alive message about a known name whose address
differs from the stored entry, `aliveNode` accepts the address update only
if the IP policy allows the address and the stored state is Left, or Dead
with `dead_node_reclaim_time > 0` configured and elapsed time strictly
greater than it.  In every other differing-address case — the stored state
admits no update, or the IP policy rejects the address even though the
state would admit one — the message is dropped with the node map, ordered
sequence, `num_nodes` and suspicion timers all unchanged, and the conflict
delegate is invoked exactly when the IP is allowed and a delegate is
configured (an IP-policy rejection drops the message without notifying
the conflict delegate). -/
theorem aliveNode_conflict_frame (cfg : Config) (now : Int) (offset : Nat) (a : Alive)
    (bootstrap : Bool) (m : Memberlist) (st : NodeState)
    (hg1 : ¬(m.leftFlag ∧ a.node = cfg.name))
    (hg2 : vsnBad a = false)
    (hg3 : aliveDelegateRejects cfg a = false)
    (hst : alookup a.node m.nodeMap = some st)
    (hdiff : st.node.addr ≠ a.addr ∨ st.node.port ≠ a.port)
    (hnoupd : ¬(cfg.ipAllowed a.addr = true ∧
      (st.state = NodeStateType.left ∨ (st.state = NodeStateType.dead ∧
        0 < cfg.deadNodeReclaimTime ∧ cfg.deadNodeReclaimTime < now - st.stateChange)))) :
    (aliveNode cfg now offset a bootstrap m).nodeMap = m.nodeMap ∧
    (aliveNode cfg now offset a bootstrap m).nodes = m.nodes ∧
    (aliveNode cfg now offset a bootstrap m).numNodes = m.numNodes ∧
    (aliveNode cfg now offset a bootstrap m).nodeTimers = m.nodeTimers ∧
    (aliveNode cfg now offset a bootstrap m).conflicts =
      (if cfg.ipAllowed a.addr ∧ cfg.hasConflictDelegate then m.conflicts + 1
       else m.conflicts) := by
  unfold aliveNode
  rw [if_neg hg1, if_neg (by simp [hg2]), if_neg (by simp [hg3]), hst]
  dsimp only
  by_cases hip : cfg.ipAllowed a.addr
  · rw [if_pos hdiff, if_neg (by simp [hip]), if_neg (fun h => hnoupd ⟨hip, h⟩)]
    by_cases hcd : cfg.hasConflictDelegate
    · simp [hcd, hip]
    · simp [hcd, hip]
  · rw [if_pos hdiff, if_pos (by simp [hip])]
    simp [hip]

theorem aliveNode_conflict_frame_witness :
    (aliveNode cfgA 3 0
      { incarnation := 2, node := "b", addr := [2], port := 1, meta := [], vsn := [] }
      false mAliveB).nodeMap = mAliveB.nodeMap ∧
    (aliveNode cfgA 3 0
      { incarnation := 2, node := "b", addr := [2], port := 1, meta := [], vsn := [] }
      false mAliveB).nodes = mAliveB.nodes ∧
    (aliveNode cfgA 3 0
      { incarnation := 2, node := "b", addr := [2], port := 1, meta := [], vsn := [] }
      false mAliveB).numNodes = mAliveB.numNodes ∧
    (aliveNode cfgA 3 0
      { incarnation := 2, node := "b", addr := [2], port := 1, meta := [], vsn := [] }
      false mAliveB).nodeTimers = mAliveB.nodeTimers ∧
    (aliveNode cfgA 3 0
      { incarnation := 2, node := "b", addr := [2], port := 1, meta := [], vsn := [] }
      false mAliveB).conflicts =
      (if cfgA.ipAllowed [2] ∧ cfgA.hasConflictDelegate then mAliveB.conflicts + 1
       else mAliveB.conflicts) :=
  aliveNode_conflict_frame cfgA 3 0
    { incarnation := 2, node := "b", addr := [2], port := 1, meta := [], vsn := [] }
    false mAliveB
    { node := nodeB, incarnation := 1, state := NodeStateType.alive, stateChange := 0 }
    (by decide) (by decide) (by decide) (by decide) (by decide) (by decide)

/-- C7: for a suspicion timer constructed with `k ≥ 1` confirmations
expected, after `k` confirmations from `k` distinct peers — all distinct
from the original accuser recorded at construction — the confirmation
count reaches `k` and the overall timeout computed by
`remainingSuspicionTime` equals `min` (its result is `min − elapsed`), so
the next fire occurs within `min` of `start`.  The float64 logarithm
computation is modelled by exact real arithmetic; at `n = k` the fraction
`log(n+1)/log(k+1)` is exactly 1 in IEEE arithmetic as well. -/
theorem suspicion_contraction (frm : String) (k : Nat) (minT maxT start now elapsed : Int)
    (l : List String) (hk : 1 ≤ k) (hlen : l.length = k) (hd : l.Nodup) (hfrm : frm ∉ l) :
    (confirmAll now l (newSuspicion start frm (k : Int) minT maxT)).n = (k : Int) ∧
    remainingSuspicionTime (confirmAll now l (newSuspicion start frm (k : Int) minT maxT)).n
      (confirmAll now l (newSuspicion start frm (k : Int) minT maxT)).k
      elapsed minT maxT = minT - elapsed := by
  have hn : ∀ x ∈ l, x ∉ (newSuspicion start frm (k : Int) minT maxT).confirmations := by
    intro x hx
    simp only [newSuspicion, List.mem_singleton]
    exact fun hxf => hfrm (hxf ▸ hx)
  have hkk : (newSuspicion start frm (k : Int) minT maxT).n + l.length
      ≤ (newSuspicion start frm (k : Int) minT maxT).k := by
    simp [newSuspicion, hlen]
  have hcount := confirmAll_count now l (newSuspicion start frm (k : Int) minT maxT) hn hd hkk
  have hns : (confirmAll now l (newSuspicion start frm (k : Int) minT maxT)).n = (k : Int) := by
    rw [hcount.1]
    simp [newSuspicion, hlen]
  have hks : (confirmAll now l (newSuspicion start frm (k : Int) minT maxT)).k = (k : Int) := by
    rw [hcount.2]
    rfl
  refine ⟨hns, ?_⟩
  rw [hns, hks]
  exact remainingSuspicionTime_at_k (k : Int) elapsed minT maxT (by exact_mod_cast hk)

theorem suspicion_contraction_witness :
    (confirmAll 0 ["c", "d"] (newSuspicion 0 "b" ((2 : Nat) : Int) 2000000 30000000)).n
      = ((2 : Nat) : Int) ∧
    remainingSuspicionTime
      (confirmAll 0 ["c", "d"] (newSuspicion 0 "b" ((2 : Nat) : Int) 2000000 30000000)).n
      (confirmAll 0 ["c", "d"] (newSuspicion 0 "b" ((2 : Nat) : Int) 2000000 30000000)).k
      500000 2000000 30000000 = 2000000 - 500000 :=
  suspicion_contraction "b" 2 2000000 30000000 0 0 500000 ["c", "d"]
    (by decide) (by decide) (by decide) (by decide)

/-- C5, counterexample: the verification pass of `verifyProtocol` does not
skip non-alive nodes.  With one compatible alive local node and one Dead
local node whose current protocol version 0 lies below `maxpmin = 1`, the
code returns an error, while the claim (alive peers only cause rejection)
says it must not. -/
theorem verifyProtocol_alive_only_cex :
    verifyProtocol []
      [{ node := { name := "x", addr := [], port := 0, meta := [],
                   pmin := 1, pmax := 1, pcur := 1, dmin := 0, dmax := 0, dcur := 0 },
         incarnation := 0, state := NodeStateType.alive, stateChange := 0 },
       { node := { name := "y", addr := [], port := 0, meta := [],
                   pmin := 1, pmax := 1, pcur := 0, dmin := 0, dmax := 0, dcur := 0 },
         incarnation := 0, state := NodeStateType.dead, stateChange := 0 }] = true ∧
    verifyProtocolSpec []
      [{ node := { name := "x", addr := [], port := 0, meta := [],
                   pmin := 1, pmax := 1, pcur := 1, dmin := 0, dmax := 0, dcur := 0 },
         incarnation := 0, state := NodeStateType.alive, stateChange := 0 },
       { node := { name := "y", addr := [], port := 0, meta := [],
                   pmin := 1, pmax := 1, pcur := 0, dmin := 0, dmax := 0, dcur := 0 },
         incarnation := 0, state := NodeStateType.dead, stateChange := 0 }] = false := by
  constructor <;> decide

/-- C5 (amended): `verifyProtocol` returns an error if and only if some
node of the remote snapshot or of the local table — of any state, not just
alive ones — has a current protocol version outside `[maxpmin, minpmax]`
or a current delegate version outside `[maxdmin, mindmax]`, where
`maxpmin` is the maximum of the minimum versions and `minpmax` the minimum
of the maximum versions over the alive nodes (remote records with no
version bytes are also skipped when computing the bounds, and are checked
with current version 0). -/
theorem verifyProtocol_iff (remote : List PushNodeState) (nodes : List NodeState) :
    verifyProtocol remote nodes = true ↔
      ((∃ n ∈ remote,
          vpBad (maxpminOf remote nodes, minpmaxOf remote nodes,
                 maxdminOf remote nodes, mindmaxOf remote nodes)
            (vpRemotePCur n) (vpRemoteDCur n) = true) ∨
       (∃ n ∈ nodes,
          vpBad (maxpminOf remote nodes, minpmaxOf remote nodes,
                 maxdminOf remote nodes, mindmaxOf remote nodes)
            n.node.pcur n.node.dcur = true)) := by
  unfold verifyProtocol
  rw [vpBounds_eq]
  simp [List.any_eq_true]

/-- C8, counterexample: with bound `max = 0` a single `ApplyDelta 1` rails
the score to `max - 1 = -1`, outside the claimed interval `[0, max-1]`
(which is empty), so the claim fails as universally stated. -/
theorem awareness_bounds_cex :
    (ApplyDelta 1 (newAwareness 0)).score = -1 ∧
    ¬ 0 ≤ (ApplyDelta 1 (newAwareness 0)).score := by
  constructor <;> decide

/-- C8 (amended): for an awareness object created with bound `max ≥ 1`,
after any sequence of `ApplyDelta` calls the score stays in `[0, max-1]`,
and for `t ≥ 0` the scaled timeout `t * (score + 1)` is at least `t`. -/
theorem awareness_bounds (max t : Int) (ds : List Int) (hmax : 1 ≤ max) (ht : 0 ≤ t) :
    0 ≤ (ds.foldl (fun acc d => ApplyDelta d acc) (newAwareness max)).score ∧
    (ds.foldl (fun acc d => ApplyDelta d acc) (newAwareness max)).score ≤ max - 1 ∧
    t ≤ ScaleTimeout t (ds.foldl (fun acc d => ApplyDelta d acc) (newAwareness max)) := by
  have h := foldl_ApplyDelta_inv ds (newAwareness max) hmax (by simp [newAwareness])
    (by simp [newAwareness]; omega)
  refine ⟨h.2.1, by simpa [newAwareness] using h.2.2, ?_⟩
  unfold ScaleTimeout
  have hs := h.2.1
  nlinarith

theorem awareness_bounds_witness :
    0 ≤ (([3, -10, 4] : List Int).foldl (fun acc d => ApplyDelta d acc) (newAwareness 8)).score ∧
    (([3, -10, 4] : List Int).foldl (fun acc d => ApplyDelta d acc) (newAwareness 8)).score ≤ 8 - 1 ∧
    (5 : Int) ≤ ScaleTimeout 5 (([3, -10, 4] : List Int).foldl (fun acc d => ApplyDelta d acc) (newAwareness 8)) :=
  awareness_bounds 8 5 [3, -10, 4] (by decide) (by decide)

/-- C10: whenever `Confirm` returns `false` — the count already reached
`k`, or the confirmer is already in the confirmation set — the suspicion
record is returned exactly as it was: `n`, the confirmation set and the
timer deadline are unchanged. -/
theorem confirm_false_frame (now : Int) (frm : String) (s : Suspicion)
    (h : (Confirm now frm s).1 = false) : (Confirm now frm s).2 = s := by
  by_cases h1 : s.n ≥ s.k
  · simp [Confirm, h1]
  · by_cases h2 : frm ∈ s.confirmations
    · simp [Confirm, h1, h2]
    · simp [Confirm, h1, h2] at h

theorem confirm_false_frame_witness :
    (Confirm 0 "b" { n := 1, k := 1, min := 7, max := 9, start := 0, deadline := 5,
                     confirmations := ["a"] }).1 = false ∧
    (Confirm 0 "b" { n := 1, k := 1, min := 7, max := 9, start := 0, deadline := 5,
                     confirmations := ["a"] }).2 =
      { n := 1, k := 1, min := 7, max := 9, start := 0, deadline := 5,
        confirmations := ["a"] } :=
  ⟨by simp [Confirm], confirm_false_frame 0 "b" _ (by simp [Confirm])⟩

/-- C3, counterexample: with `suspicion_mult = 1` and `num_nodes = 3` the
code computes `k = suspicion_mult - 2 = -1` (there is no clamping with
`max(·, 0)`), the zeroing test `num_nodes - 2 < k` does not trigger, and
`suspectNode` hands this negative `k` to the suspicion-timer constructor —
contradicting both the claimed formula and the claimed non-negativity. -/
theorem suspicionK_cex :
    suspicionK 1 3 = -1 ∧ suspicionKSpec 1 3 = 0 ∧ suspicionK 1 3 < 0 := by
  refine ⟨by decide, by decide, by decide⟩

/-- C3 (amended): `suspectNode` computes the threshold as
`k = suspicion_mult − 2` with no lower clamp, then sets `k = 0` when
`num_nodes − 2 < k`; the result is either `0` or `suspicion_mult − 2`, and
it is never negative provided `suspicion_mult ≥ 2` (for
`suspicion_mult < 2` a negative `k` can reach the constructor, which
treats any `k < 1` as "no confirmations expected"). -/
theorem suspicionK_amended (suspicionMult n : Int) (h : 2 ≤ suspicionMult) :
    0 ≤ suspicionK suspicionMult n ∧
    (suspicionK suspicionMult n = 0 ∨ suspicionK suspicionMult n = suspicionMult - 2) := by
  unfold suspicionK
  dsimp only
  split_ifs <;> omega

theorem suspicionK_amended_witness :
    0 ≤ suspicionK 4 10 ∧ (suspicionK 4 10 = 0 ∨ suspicionK 4 10 = 4 - 2) :=
  suspicionK_amended 4 10 (by decide)

/-- C6, counterexample: refuting an accusation carrying the maximal
32-bit incarnation `2^32 - 1` wraps the counter to `0`, so the stored
incarnation is not strictly greater than the accusation. -/
theorem refute_wrap_cex :
    ¬ (4294967295 <
      ((refute (initMemberlist 8)
        { node := { name := "a", addr := [1], port := 1, meta := [],
                    pmin := 1, pmax := 5, pcur := 2, dmin := 0, dmax := 0, dcur := 0 },
          incarnation := 0, state := NodeStateType.alive, stateChange := 0 }
        4294967295).2.1).incarnation) := by
  decide

/-- C6 (amended): for every self node state and every accused incarnation
strictly below `2^32 - 1`, `refute` stores an incarnation strictly greater
than the accusation, and the broadcast alive message carries exactly that
new incarnation (at `2^32 - 1` the `uint32` counter wraps). -/
theorem refute_beats_accusation (m : Memberlist) (me : NodeState) (accusedInc : Nat)
    (h : accusedInc ≤ 2 ^ 32 - 2) :
    accusedInc < ((refute m me accusedInc).2.1).incarnation ∧
    ((refute m me accusedInc).2.2).incarnation = ((refute m me accusedInc).2.1).incarnation :=
  ⟨refute_incarnation_gt m me accusedInc h, refute_broadcast_inc m me accusedInc⟩

theorem refute_beats_accusation_witness :
    41 <
      ((refute (initMemberlist 8)
        { node := { name := "a", addr := [1], port := 1, meta := [],
                    pmin := 1, pmax := 5, pcur := 2, dmin := 0, dmax := 0, dcur := 0 },
          incarnation := 7, state := NodeStateType.alive, stateChange := 0 }
        41).2.1).incarnation ∧
    ((refute (initMemberlist 8)
        { node := { name := "a", addr := [1], port := 1, meta := [],
                    pmin := 1, pmax := 5, pcur := 2, dmin := 0, dmax := 0, dcur := 0 },
          incarnation := 7, state := NodeStateType.alive, stateChange := 0 }
        41).2.2).incarnation =
      ((refute (initMemberlist 8)
        { node := { name := "a", addr := [1], port := 1, meta := [],
                    pmin := 1, pmax := 5, pcur := 2, dmin := 0, dmax := 0, dcur := 0 },
          incarnation := 7, state := NodeStateType.alive, stateChange := 0 }
        41).2.1).incarnation :=
  refute_beats_accusation _ _ 41 (by decide)

end MemberlistModel
